import Mathlib

/-!
Verification of the fire-detection data pipeline of this repository.

Shallow embedding conventions:
 - Python floats on purely arithmetic paths are embedded as rationals;
   latitude/longitude values that flow into trigonometric distance
   computations are embedded as real numbers.
 - Timestamps (ISO-8601 strings ordered lexicographically, which agrees
   with chronological order for the fixed format used by the code) are
   embedded as integers counting seconds.
 - A parsed CSV row (csv.DictReader output) is an association list from
   field names to raw string values; a raw line split on commas is a list
   of strings.
 - Fallible Python code (float conversion, missing keys) is embedded with
   Option; a caught exception that the code converts to a default result
   is embedded by returning that default.
-/

namespace NasaFirmsApi

/-- Raw confidence value as received by the normalizer: Python
distinguishes the string case by an isinstance test, so the embedding
keeps the tag. -/
inductive RawConfidence where
  | str (s : String)
  | num (v : ℚ)
deriving DecidableEq

/-- ASCII lowercasing of a string, the effect of the Python str.lower()
call on the feed values (written on the character list so that it reduces
definitionally). -/
def strLower (s : String) : String :=
  String.mk (s.data.map Char.toLower)

/-- Embeds NASAFIRMSAPIClient._normalize_confidence from
src/satellite-detection-project/src/utils/nasa_firms_api.py: categorical
strings map to fixed tiers, any other string maps to 1/2; numeric values
in [0,1] pass through, in (1,100] are divided by 100, anything else maps
to 1/2. -/
def normalizeConfidence : RawConfidence → ℚ
  | .str s =>
    let c := strLower s
    if c = "l" ∨ c = "low" then 3/10
    else if c = "n" ∨ c = "nominal" then 6/10
    else if c = "h" ∨ c = "high" then 9/10
    else 1/2
  | .num v =>
    if 0 ≤ v ∧ v ≤ 1 then v
    else if 0 ≤ v ∧ v ≤ 100 then v / 100
    else 1/2

/-- Numeric value of a list of decimal digit characters. -/
def digitsToNat (cs : List Char) : Nat :=
  cs.foldl (fun n c => 10 * n + (c.toNat - 48)) 0

/-- Value of a fractional digit string, e.g. "25" denotes 0.25. -/
def fracValue (cs : List Char) : ℚ :=
  cs.foldr (fun c q => (((c.toNat - 48 : Nat) : ℚ) + q) / 10) 0

/-- Embeds the Python float(s) conversion on the plain decimal literals
that occur in the feed: optional sign, integer digits, optional decimal
point and fraction digits. Returns none where float(s) raises ValueError. -/
def parseFloat (s : String) : Option ℚ :=
  let cs := s.toList
  let signAndRest : ℚ × List Char :=
    match cs with
    | '-' :: r => (-1, r)
    | '+' :: r => (1, r)
    | _ => (1, cs)
  let sign := signAndRest.1
  let rest := signAndRest.2
  let intPart := rest.takeWhile (·.isDigit)
  let rest2 := rest.dropWhile (·.isDigit)
  match rest2 with
  | [] =>
    if intPart.isEmpty then none
    else some (sign * (digitsToNat intPart : ℚ))
  | '.' :: fracPart =>
    if fracPart.all (·.isDigit) ∧ ¬(intPart.isEmpty ∧ fracPart.isEmpty) then
      some (sign * ((digitsToNat intPart : ℚ) + fracValue fracPart))
    else none
  | _ => none

/-- A parsed CSV row as produced by csv.DictReader: field name to raw
string value. -/
def Row : Type := List (String × String)

/-- Field lookup in a row, mirroring Python dict access. -/
def rowGet (row : Row) (k : String) : Option String :=
  List.lookup k row

/-- Typed fire record produced by NASAFIRMSAPIClient._parse_csv_response. -/
structure Fire where
  latitude : ℚ
  longitude : ℚ
  brightness : ℚ
  brightnessT31 : ℚ
  frp : ℚ
  confidence : ℚ
  daynight : String
  acqDate : String
  acqTime : String
  satellite : String
  scan : ℚ
  track : ℚ
  instrument : String
  version : String
deriving DecidableEq

/-- The value of an optional numeric field: the parsed string when the
key is present (a conversion failure raises, hence none), the numeric
default 0 when absent. -/
def optField (row : Row) (k : String) : Option ℚ :=
  match rowGet row k with
  | some s => parseFloat s
  | none => some 0

/-- The raw confidence value handed to the normalizer by the row loop:
the string field when present, the numeric default 0 when absent. -/
def rawConfidenceOf (row : Row) : RawConfidence :=
  match rowGet row "confidence" with
  | some s => .str s
  | none => .num 0

/-- Embeds the per-row body of _parse_csv_response. Returns none exactly
when the Python body raises: a missing latitude/longitude key, or a float
conversion failure on a present field. Optional numeric fields default to
0 when the key is absent; string fields take their documented defaults. -/
def parseFireRow (row : Row) : Option Fire := do
  let latS ← rowGet row "latitude"
  let lat ← parseFloat latS
  let lonS ← rowGet row "longitude"
  let lon ← parseFloat lonS
  let brightness ← optField row "brightness"
  let brightnessT31 ← optField row "bright_t31"
  let frp ← optField row "frp"
  let confidence := normalizeConfidence (rawConfidenceOf row)
  let scan ← optField row "scan"
  let track ← optField row "track"
  some { latitude := lat, longitude := lon, brightness := brightness,
         brightnessT31 := brightnessT31, frp := frp, confidence := confidence,
         daynight := (rowGet row "daynight").getD "D",
         acqDate := (rowGet row "acq_date").getD "",
         acqTime := (rowGet row "acq_time").getD "",
         satellite := (rowGet row "satellite").getD "Unknown",
         scan := scan, track := track,
         instrument := (rowGet row "instrument").getD "Unknown",
         version := (rowGet row "version").getD "1.0" }

/-- Embeds _parse_csv_response: the whole row loop sits inside one
try/except, so the first row whose processing raises ends the loop and
the rows accumulated so far are returned; rows after the failing row are
never processed. -/
def parseCsvResponse : List Row → List Fire
  | [] => []
  | row :: rest =>
    match parseFireRow row with
    | some fire => fire :: parseCsvResponse rest
    | none => []

/-- Embeds the SOURCES lookup with default viirs_noaa20 in
fetch_fires_in_region. -/
def sourceName (source : String) : String :=
  if source = "viirs_noaa20" then "VIIRS_NOAA20_NRT"
  else if source = "viirs_snpp" then "VIIRS_SNPP_NRT"
  else if source = "modis" then "MODIS_NRT"
  else if source = "viirs" then "VIIRS_SNPP_NRT"
  else "VIIRS_NOAA20_NRT"

/-- The parameters of the outgoing FIRMS area request, as interpolated
into the request URL by fetch_fires_in_region. -/
structure FirmsRequest where
  lat : ℚ
  lon : ℚ
  radius_km : ℚ
  source : String
  dayRange : Nat
deriving DecidableEq

/-- Embeds the request construction of fetch_fires_in_region: the radius
is limited to the API maximum by min(radius_km, 1000) before the URL is
built; no lower bound is applied. -/
def fetchFiresInRegionRequest (lat lon radius_km : ℚ) (source : String)
    (dayRange : Nat) : FirmsRequest :=
  { lat := lat, lon := lon, radius_km := min radius_km 1000,
    source := sourceName source, dayRange := dayRange }

/-- Modelled from the claim wording for comparison: a radius clamped into
the closed interval [1, 1000]. -/
def claimedClampRadius (radius_km : ℚ) : ℚ :=
  min (max radius_km 1) 1000

end NasaFirmsApi

namespace SatelliteClient

/-- Flat detection record built by SatelliteDataClient._parse_firms_csv in
src/src/api/satellite_client.py. -/
structure Detection where
  latitude : ℚ
  longitude : ℚ
  confidence : ℚ
  power_mw : ℚ
  timestamp : String
deriving DecidableEq

/-- Embeds the per-line body of _parse_firms_csv, where parts is the line
split on commas and nowIso stands for datetime.now().isoformat(). Lines
with fewer than 4 fields append nothing; a float conversion failure raises
inside the per-line try and the line is skipped. -/
def parseFirmsLine (nowIso : String) (parts : List String) : Option Detection :=
  if 4 ≤ parts.length then do
    let lat ← NasaFirmsApi.parseFloat (parts.getD 0 "")
    let lon ← NasaFirmsApi.parseFloat (parts.getD 1 "")
    let confidence ←
      if 8 < parts.length then
        (NasaFirmsApi.parseFloat (parts.getD 8 "")).map (· / 100)
      else
        some (8/10)
    let power ← NasaFirmsApi.parseFloat (parts.getD 3 "")
    some { latitude := lat, longitude := lon, confidence := confidence,
           power_mw := power,
           timestamp := if 6 < parts.length then parts.getD 6 "" else nowIso }
  else none

/-- Embeds _parse_firms_csv: the header line is skipped and every failing
data line is skipped individually by its own try/except, so each remaining
well-formed line contributes its record. Inputs of fewer than two lines
produce the empty list, matching the early return. -/
def parseFirmsCsv (nowIso : String) (lines : List (List String)) : List Detection :=
  (lines.drop 1).filterMap (parseFirmsLine nowIso)

/-- Input to the confidence classifier: the fields of a fire dict read by
get_fire_detections_with_confidence. -/
structure FireIn where
  confidence : ℚ
  power_mw : ℚ
deriving DecidableEq

/-- Embeds the power-based confidence adjustment inside
get_fire_detections_with_confidence: power above 500 adds 0.1, otherwise
power above 100 adds 0.05, each result capped at 0.99; other events keep
their confidence. -/
def adjustConfidence (conf power : ℚ) : ℚ :=
  if 500 < power then min (99/100) (conf + 1/10)
  else if 100 < power then min (99/100) (conf + 1/20)
  else conf

/-- The three confidence tiers returned by
get_fire_detections_with_confidence. -/
structure Classified where
  high : List FireIn
  moderate : List FireIn
  low : List FireIn
deriving DecidableEq

/-- Embeds the classification loop of get_fire_detections_with_confidence:
each event gets its adjusted confidence, then lands in high when the
adjusted value is at least 0.8, in moderate when at least 0.6, otherwise
in low; input order is preserved inside each tier. -/
def classifyFires : List FireIn → Classified
  | [] => { high := [], moderate := [], low := [] }
  | f :: rest =>
    let c := adjustConfidence f.confidence f.power_mw
    let d : FireIn := { confidence := c, power_mw := f.power_mw }
    let r := classifyFires rest
    if 8/10 ≤ c then { r with high := d :: r.high }
    else if 6/10 ≤ c then { r with moderate := d :: r.moderate }
    else { r with low := d :: r.low }

/-- The adjusted detection produced for one input event. -/
def adjustedOf (f : FireIn) : FireIn :=
  { confidence := adjustConfidence f.confidence f.power_mw,
    power_mw := f.power_mw }

end SatelliteClient

namespace NasaApi

/-- Outcome of one attempt of the underlying imagery source: a produced
image, a None result, or a raised exception (both failure shapes are
caught by the retry loop). -/
inductive AttemptOutcome (α : Type) where
  | ok (a : α)
  | noData
  | exn
deriving DecidableEq

/-- True exactly on a successful attempt outcome. -/
def AttemptOutcome.isOk {α : Type} : AttemptOutcome α → Bool
  | .ok _ => true
  | _ => false

/-- Embeds the attempt loop of SatelliteImageFetcher.fetch_satellite_image
in src/src/utils/nasa_api.py: attempt indices start at i and fuel
attempts remain; the pair counts attempts actually made. A successful
attempt returns its image at once; a None result or a caught exception
moves to the next attempt; an exhausted loop yields none. -/
def retryLoop {α : Type} (outcomes : Nat → AttemptOutcome α) :
    Nat → Nat → Option α × Nat
  | _, 0 => (none, 0)
  | i, fuel + 1 =>
    match outcomes i with
    | .ok a => (some a, 1)
    | _ =>
      let r := retryLoop outcomes (i + 1) fuel
      (r.1, r.2 + 1)

/-- Embeds fetch_satellite_image: a cache hit returns the cached image
with no attempt; otherwise the retry loop runs max_retries attempts. The
outer try/except of the source converts any escaping exception into
None, so the embedded result type carries no error channel. -/
def fetchSatelliteImage {α : Type} (cache : Option α)
    (outcomes : Nat → AttemptOutcome α) (maxRetries : Nat) : Option α × Nat :=
  match cache with
  | some img => (some img, 0)
  | none => retryLoop outcomes 0 maxRetries

/-- Embeds validate_coordinates in src/src/utils/nasa_api.py: exactly two
components, latitude within [-90, 90] and longitude within [-180, 180]. -/
def validateCoordinates (coordinates : List ℚ) : Bool :=
  match coordinates with
  | [lat, lon] =>
    decide (-90 ≤ lat) && decide (lat ≤ 90) &&
    decide (-180 ≤ lon) && decide (lon ≤ 180)
  | _ => false

end NasaApi

namespace ExtendedMain

/-- Embeds the request-validation prefix of the detect_fires route in
src/satellite-detection-project/src/api/extended_main.py: coordinates are
checked with validate_coordinates before any fetch; failure raises a 400
validation error and no FIRMS request value is ever constructed, success
issues the fetch_fires_in_region request for the given radius. -/
def detectFiresRequest (coordinates : List ℚ) (radius_km : ℚ) :
    Except String NasaFirmsApi.FirmsRequest :=
  if NasaApi.validateCoordinates coordinates then
    match coordinates with
    | [lat, lon] =>
      .ok (NasaFirmsApi.fetchFiresInRegionRequest lat lon radius_km
            "viirs_noaa20" 1)
    | _ => .error "Invalid coordinates"
  else .error "Invalid coordinates"

end ExtendedMain

namespace ImageCache

/-- State of ImageCache in src/src/utils/nasa_api.py: access_times is the
Python dict as an association list in insertion order (keys distinct),
and files is the set of cache files present on disk, as a list. Time
instants are naturals. -/
structure CacheState where
  entries : List (String × Nat)
  files : List String
deriving DecidableEq

/-- Update of a Python dict entry: an existing key keeps its position and
gets the new value, a fresh key is appended. -/
def setAccess : List (String × Nat) → String → Nat → List (String × Nat)
  | [], k, t => [(k, t)]
  | (k', t') :: rest, k, t =>
    if k' = k then (k, t) :: rest else (k', t') :: setAccess rest k t

/-- Embeds ImageCache.get: when the cache file for the key exists the
access time is refreshed to now and the payload is returned (the Bool
reports presence), otherwise the state is unchanged and the result is
absent. -/
def cacheGet (st : CacheState) (key : String) (now : Nat) : Bool × CacheState :=
  if key ∈ st.files then
    (true, { st with entries := setAccess st.entries key now })
  else
    (false, st)

/-- Embeds ImageCache.set: the payload file is written and the access
time refreshed. -/
def cacheSet (st : CacheState) (key : String) (now : Nat) : CacheState :=
  { entries := setAccess st.entries key now,
    files := if key ∈ st.files then st.files else st.files ++ [key] }

/-- Embeds min(access_times.items(), key=lambda x: x[1]): the first entry
attaining the minimal access time, none on an empty dict. -/
def oldestEntry : List (String × Nat) → Option (String × Nat)
  | [] => none
  | e :: rest => some (rest.foldl (fun best x => if x.2 < best.2 then x else best) e)

/-- Embeds ImageCache.clear_old: when the entry count exceeds max_size,
the entry with the oldest access time is removed from both the dict and
the disk; otherwise nothing happens. -/
def clearOld (st : CacheState) (maxSize : Nat) : CacheState :=
  if maxSize < st.entries.length then
    match oldestEntry st.entries with
    | some e =>
      { entries := st.entries.filter (fun p => p.1 ≠ e.1),
        files := st.files.erase e.1 }
    | none => st
  else st

end ImageCache

namespace FireHistory

/-- Degrees to radians, as math.radians. -/
noncomputable def radians (d : ℝ) : ℝ := d * (Real.pi / 180)

/-- Embeds FireHistoryTracker._haversine_distance in
src/src/utils/fire_history.py. -/
noncomputable def haversineDistance (lat1 lon1 lat2 lon2 : ℝ) : ℝ :=
  let lat1r := radians lat1
  let lon1r := radians lon1
  let lat2r := radians lat2
  let lon2r := radians lon2
  let dlon := lon2r - lon1r
  let dlat := lat2r - lat1r
  let a := Real.sin (dlat / 2) ^ 2 +
    Real.cos lat1r * Real.cos lat2r * Real.sin (dlon / 2) ^ 2
  let c := 2 * Real.arcsin (Real.sqrt a)
  6371 * c

/-- A row of the fires table. detection_time counts seconds; coordinate
fields are reals because they feed the haversine computation; the id is
the SQLite rowid. -/
structure FireRecord where
  id : Nat
  detection_time : Int
  latitude : ℝ
  longitude : ℝ
  confidence : ℚ
  power_mw : ℚ
  center_lat : ℝ
  center_lon : ℝ
  alert_sent : Bool

/-- Stable insertion of an element into a list sorted by the Boolean
comparator le: the element goes before the first position it compares
le-true against. -/
def insertBy {α : Type} (le : α → α → Bool) (a : α) : List α → List α
  | [] => [a]
  | b :: bs => if le a b then a :: b :: bs else b :: insertBy le a bs

/-- Stable insertion sort by the Boolean comparator le. -/
def sortBy {α : Type} (le : α → α → Bool) (l : List α) : List α :=
  l.foldr (insertBy le) []

/-- The comparator realised by ORDER BY detection_time DESC: rows with
strictly later detection_time come first; the relative order of rows with
equal detection_time is chosen by the database engine, embedded here as
the parameter tie. -/
def orderByTimeDesc (tie : FireRecord → FireRecord → Bool)
    (a b : FireRecord) : Bool :=
  if a.detection_time = b.detection_time then tie a b
  else decide (b.detection_time < a.detection_time)

/-- The WHERE clause of get_recent_detections: detection_time at least
the cutoff and confidence at least min_confidence. -/
def matchesRecent (cutoff : Int) (minConfidence : ℚ) (r : FireRecord) : Bool :=
  decide (cutoff ≤ r.detection_time) && decide (minConfidence ≤ r.confidence)

/-- Embeds the query of FireHistoryTracker.get_recent_detections: rows
passing the WHERE clause, ordered by detection_time descending with the
engine-chosen tie order, truncated to limit rows. The cutoff is
now - hours in seconds. -/
def getRecentDetections (tie : FireRecord → FireRecord → Bool)
    (store : List FireRecord) (now : Int) (hours : Int) (minConfidence : ℚ)
    (limit : Nat) : List FireRecord :=
  let cutoff := now - hours * 3600
  (sortBy (orderByTimeDesc tie) (store.filter (matchesRecent cutoff minConfidence))).take limit

open scoped Classical in
/-- Embeds the query of FireHistoryTracker.get_detections_by_location:
the SQL prefilter keeps rows within the time window whose stored
center_lat and center_lon both lie within radius_km/111 degrees of the
query point (the same half-width is used for latitude and longitude),
ordered by detection_time descending with engine tie order; the Python
loop then keeps rows whose haversine distance from the query point to the
row latitude/longitude fields is at most radius_km. The cutoff is
now - days in seconds. -/
noncomputable def getDetectionsByLocation
    (tie : FireRecord → FireRecord → Bool)
    (store : List FireRecord) (now : Int)
    (latitude longitude : ℝ) (radius_km : ℝ) (days : Int) :
    List FireRecord :=
  let cutoff := now - days * 86400
  let prefiltered := store.filter (fun r =>
    decide (cutoff ≤ r.detection_time ∧
      latitude - radius_km / 111 ≤ r.center_lat ∧
      r.center_lat ≤ latitude + radius_km / 111 ∧
      longitude - radius_km / 111 ≤ r.center_lon ∧
      r.center_lon ≤ longitude + radius_km / 111))
  (sortBy (orderByTimeDesc tie) prefiltered).filter
    (fun r => decide (haversineDistance latitude longitude
      r.latitude r.longitude ≤ radius_km))

open scoped Classical in
/-- Modelled from the claim wording for comparison: the same query with a
longitude half-width of radius_km/(111 cos(center latitude)) degrees and
the exact haversine filter applied between the query center and the
stored search-center fields of each row. -/
noncomputable def claimedGetDetectionsByLocation
    (tie : FireRecord → FireRecord → Bool)
    (store : List FireRecord) (now : Int)
    (latitude longitude : ℝ) (radius_km : ℝ) (days : Int) :
    List FireRecord :=
  let cutoff := now - days * 86400
  let lonHalfWidth := radius_km / (111 * Real.cos (radians latitude))
  let prefiltered := store.filter (fun r =>
    decide (cutoff ≤ r.detection_time ∧
      latitude - radius_km / 111 ≤ r.center_lat ∧
      r.center_lat ≤ latitude + radius_km / 111 ∧
      longitude - lonHalfWidth ≤ r.center_lon ∧
      r.center_lon ≤ longitude + lonHalfWidth))
  (sortBy (orderByTimeDesc tie) prefiltered).filter
    (fun r => decide (haversineDistance latitude longitude
      r.center_lat r.center_lon ≤ radius_km))

/-- Embeds FireHistoryTracker.cleanup_old_records: rows whose
detection_time is strictly below now - max_history_days are deleted; the
remaining store and the number of deleted rows are returned. -/
def cleanupOldRecords (now : Int) (maxHistoryDays : Int)
    (store : List FireRecord) : List FireRecord × Nat :=
  let cutoff := now - maxHistoryDays * 86400
  (store.filter (fun r => !decide (r.detection_time < cutoff)),
   (store.filter (fun r => decide (r.detection_time < cutoff))).length)

/-- The Python round(x, 2) on the rational idealization of the float
values involved: round half to even at two decimal places. -/
def pythonRound2 (q : ℚ) : ℚ :=
  let x := q * 100
  let f : Int := ⌊x⌋
  let frac := x - (f : ℚ)
  let n : Int :=
    if frac < 1/2 then f
    else if 1/2 < frac then f + 1
    else if f % 2 = 0 then f else f + 1
  (n : ℚ) / 100

/-- Embeds the success path of FireHistoryTracker.get_statistics as the
returned dict, an association list; every value is numeric, with
period_days and last_updated echoing the inputs. An empty window yields
average 0 through the SQL NULL coalescing. -/
def getStatistics (store : List FireRecord) (now : Int) (days : Int) :
    List (String × ℚ) :=
  let cutoff := now - days * 86400
  let recent := store.filter (fun r => decide (cutoff ≤ r.detection_time))
  let avgRaw : ℚ :=
    if recent.length = 0 then 0
    else (recent.map (fun r => r.confidence)).sum / (recent.length : ℚ)
  [("total_detections", (recent.length : ℚ)),
   ("high_confidence_detections",
     ((recent.filter (fun r => decide ((8 : ℚ)/10 ≤ r.confidence))).length : ℚ)),
   ("average_confidence", pythonRound2 avgRaw),
   ("total_thermal_power_mw",
     pythonRound2 ((recent.map (fun r => r.power_mw)).sum)),
   ("alerts_sent", ((recent.filter (fun r => r.alert_sent)).length : ℚ)),
   ("period_days", (days : ℚ)),
   ("last_updated", (now : ℚ))]

/-- Embeds the try/except wrapper of get_recent_detections: a storage
failure is caught and the call returns the empty list. -/
def getRecentDetectionsSafe (storageFails : Bool)
    (tie : FireRecord → FireRecord → Bool) (store : List FireRecord)
    (now : Int) (hours : Int) (minConfidence : ℚ) (limit : Nat) :
    List FireRecord :=
  if storageFails then []
  else getRecentDetections tie store now hours minConfidence limit

/-- Embeds the try/except wrapper of get_detections_by_location: a
storage failure is caught and the call returns the empty list. -/
noncomputable def getDetectionsByLocationSafe (storageFails : Bool)
    (tie : FireRecord → FireRecord → Bool) (store : List FireRecord)
    (now : Int) (latitude longitude : ℝ) (radius_km : ℝ) (days : Int) :
    List FireRecord :=
  if storageFails then []
  else getDetectionsByLocation tie store now latitude longitude radius_km days

/-- Embeds the try/except wrapper of get_statistics: a storage failure is
caught and the call returns the empty dict. -/
def getStatisticsSafe (storageFails : Bool) (store : List FireRecord)
    (now : Int) (days : Int) : List (String × ℚ) :=
  if storageFails then [] else getStatistics store now days

/-- The next SQLite rowid of the fires table. -/
def nextRowId (store : List FireRecord) : Nat :=
  store.foldl (fun m r => max m r.id) 0 + 1

/-- Embeds FireHistoryTracker.add_detection: the except branch re-raises
a storage failure, embedded as an error value; on success the row is
inserted with a fresh id, which is returned. -/
def addDetection (storageFails : Bool) (store : List FireRecord)
    (det : FireRecord) : Except Unit (List FireRecord × Nat) :=
  if storageFails then .error ()
  else
    let newId := nextRowId store
    .ok (store ++ [{ det with id := newId }], newId)

/-- Embeds FireHistoryTracker.add_detections_batch: the except branch
re-raises a storage failure; on success all rows are inserted in one
transaction with consecutive ids, which are returned. -/
def addDetectionsBatch (storageFails : Bool) (store : List FireRecord)
    (dets : List FireRecord) : Except Unit (List FireRecord × List Nat) :=
  if storageFails then .error ()
  else
    let base := nextRowId store
    let newRecs := dets.enum.map (fun p => { p.2 with id := base + p.1 })
    .ok (store ++ newRecs, newRecs.map (fun r => r.id))

end FireHistory

namespace FireHistory

/-- Membership in a stable insertion step. -/
theorem mem_insertBy {α : Type} (le : α → α → Bool) (a b : α) :
    ∀ l : List α, b ∈ insertBy le a l ↔ b = a ∨ b ∈ l := by
  intro l
  induction l with
  | nil => simp [insertBy]
  | cons c cs ih =>
    by_cases h : le a c = true
    · simp [insertBy, h]
    · simp only [insertBy, h, if_neg, Bool.not_eq_true] at *
      simp [List.mem_cons, ih]
      tauto

/-- Stable insertion sort permutes membership. -/
theorem mem_sortBy {α : Type} (le : α → α → Bool) (b : α) :
    ∀ l : List α, b ∈ sortBy le l ↔ b ∈ l := by
  intro l
  induction l with
  | nil => simp [sortBy]
  | cons c cs ih =>
    simp only [sortBy, List.foldr] at *
    rw [mem_insertBy]
    simp [ih]

/-- Length is preserved by a stable insertion step. -/
theorem length_insertBy {α : Type} (le : α → α → Bool) (a : α) :
    ∀ l : List α, (insertBy le a l).length = l.length + 1 := by
  intro l
  induction l with
  | nil => simp [insertBy]
  | cons c cs ih =>
    by_cases h : le a c = true
    · simp [insertBy, h]
    · simp [insertBy, h, ih]

/-- Length is preserved by the stable insertion sort. -/
theorem length_sortBy {α : Type} (le : α → α → Bool) :
    ∀ l : List α, (sortBy le l).length = l.length := by
  intro l
  induction l with
  | nil => rfl
  | cons c cs ih =>
    show (insertBy le c (sortBy le cs)).length = cs.length + 1
    rw [length_insertBy, ih]

/-- A stable insertion step preserves pairwise order for any transitive
relation consistent with the comparator. -/
theorem pairwise_insertBy {α : Type} (le : α → α → Bool) (P : α → α → Prop)
    (h1 : ∀ x y, le x y = true → P x y)
    (h2 : ∀ x y, le x y = false → P y x)
    (htrans : ∀ x y z, P x y → P y z → P x z) (a : α) :
    ∀ l : List α, l.Pairwise P → (insertBy le a l).Pairwise P := by
  intro l
  induction l with
  | nil => intro _; simp [insertBy]
  | cons c cs ih =>
    intro hp
    rcases List.pairwise_cons.mp hp with ⟨hc, hcs⟩
    by_cases h : le a c = true
    · rw [insertBy, if_pos h]
      refine List.pairwise_cons.mpr ⟨?_, hp⟩
      intro x hx
      rcases List.mem_cons.mp hx with rfl | hx
      · exact h1 _ _ h
      · exact htrans _ _ _ (h1 _ _ h) (hc x hx)
    · rw [insertBy, if_neg h]
      refine List.pairwise_cons.mpr ⟨?_, ih hcs⟩
      intro x hx
      rcases (mem_insertBy le a x cs).mp hx with rfl | hx
      · exact h2 _ _ (Bool.eq_false_iff.mpr h)
      · exact hc x hx

/-- The stable insertion sort orders its output by any transitive relation
consistent with the comparator. -/
theorem pairwise_sortBy {α : Type} (le : α → α → Bool) (P : α → α → Prop)
    (h1 : ∀ x y, le x y = true → P x y)
    (h2 : ∀ x y, le x y = false → P y x)
    (htrans : ∀ x y z, P x y → P y z → P x z) :
    ∀ l : List α, (sortBy le l).Pairwise P := by
  intro l
  induction l with
  | nil => simp [sortBy]
  | cons c cs ih =>
    simpa [sortBy, List.foldr] using
      pairwise_insertBy le P h1 h2 htrans c _ ih

/-- The relation enforced on rows by ORDER BY detection_time DESC, for
any engine tie order. -/
theorem orderByTimeDesc_consistent (tie : FireRecord → FireRecord → Bool) :
    (∀ x y, orderByTimeDesc tie x y = true → y.detection_time ≤ x.detection_time) ∧
    (∀ x y, orderByTimeDesc tie x y = false → x.detection_time ≤ y.detection_time) := by
  constructor
  · intro x y h
    by_cases he : x.detection_time = y.detection_time
    · exact le_of_eq he.symm
    · rw [orderByTimeDesc, if_neg he] at h
      exact le_of_lt (of_decide_eq_true h)
  · intro x y h
    by_cases he : x.detection_time = y.detection_time
    · exact le_of_eq he
    · rw [orderByTimeDesc, if_neg he] at h
      exact le_of_not_lt (of_decide_eq_false h)

/-- Splitting the length of a list by a Boolean predicate. -/
theorem length_filter_add_length_not {α : Type} (p : α → Bool) :
    ∀ l : List α, (l.filter p).length + (l.filter (fun a => !p a)).length = l.length := by
  intro l
  induction l with
  | nil => rfl
  | cons c cs ih =>
    cases h : p c with
    | true =>
      simp [List.filter_cons, h]
      omega
    | false =>
      simp [List.filter_cons, h]
      omega

end FireHistory

namespace SatelliteClient

/-- The classifier equals the three filters of the adjusted event list by
the tier thresholds. -/
theorem classifyFires_eq (fires : List FireIn) :
    classifyFires fires =
      { high := (fires.map adjustedOf).filter
          (fun d => decide ((8 : ℚ)/10 ≤ d.confidence)),
        moderate := (fires.map adjustedOf).filter
          (fun d => decide ((6 : ℚ)/10 ≤ d.confidence) &&
            !decide ((8 : ℚ)/10 ≤ d.confidence)),
        low := (fires.map adjustedOf).filter
          (fun d => !decide ((6 : ℚ)/10 ≤ d.confidence)) } := by
  induction fires with
  | nil => rfl
  | cons f rest ih =>
    by_cases h8 : (8 : ℚ)/10 ≤ adjustConfidence f.confidence f.power_mw
    · have h6 : (6 : ℚ)/10 ≤ adjustConfidence f.confidence f.power_mw := by
        linarith
      simp [classifyFires, h8, h6, ih, adjustedOf, List.filter_cons]
    · by_cases h6 : (6 : ℚ)/10 ≤ adjustConfidence f.confidence f.power_mw
      · simp [classifyFires, h8, h6, ih, adjustedOf, List.filter_cons]
      · simp [classifyFires, h8, h6, ih, adjustedOf, List.filter_cons]

/-- Every event lands in exactly one tier: the tier sizes sum to the
input size. -/
theorem classifyFires_length (fires : List FireIn) :
    (classifyFires fires).high.length + (classifyFires fires).moderate.length +
      (classifyFires fires).low.length = fires.length := by
  induction fires with
  | nil => rfl
  | cons f rest ih =>
    by_cases h8 : (8 : ℚ)/10 ≤ adjustConfidence f.confidence f.power_mw
    · simp only [classifyFires, h8, if_true, List.length_cons]
      omega
    · by_cases h6 : (6 : ℚ)/10 ≤ adjustConfidence f.confidence f.power_mw
      · simp only [classifyFires, h8, h6, if_true, if_false, List.length_cons]
        omega
      · simp only [classifyFires, h8, h6, if_false, List.length_cons]
        omega

end SatelliteClient

/-- C4: the classifier first adjusts each confidence (power above 500
adds 0.1, else power above 100 adds 0.05, capped at 0.99), then puts each
event into exactly one tier by adjusted confidence: high at least 0.8,
moderate in [0.6, 0.8), low below 0.6; it is a pure function of its
input, and the event with confidence 0.75 and power 600 is adjusted to
0.85 and bucketed high. -/
theorem classification_tiers_correct : ∀ fires : List SatelliteClient.FireIn,
    (SatelliteClient.classifyFires fires).high =
      (fires.map SatelliteClient.adjustedOf).filter
        (fun d => decide ((8 : ℚ)/10 ≤ d.confidence)) ∧
    (SatelliteClient.classifyFires fires).moderate =
      (fires.map SatelliteClient.adjustedOf).filter
        (fun d => decide ((6 : ℚ)/10 ≤ d.confidence) &&
          !decide ((8 : ℚ)/10 ≤ d.confidence)) ∧
    (SatelliteClient.classifyFires fires).low =
      (fires.map SatelliteClient.adjustedOf).filter
        (fun d => !decide ((6 : ℚ)/10 ≤ d.confidence)) ∧
    (SatelliteClient.classifyFires fires).high.length +
      (SatelliteClient.classifyFires fires).moderate.length +
      (SatelliteClient.classifyFires fires).low.length = fires.length ∧
    SatelliteClient.adjustConfidence (3/4) 600 = 17/20 ∧
    SatelliteClient.classifyFires [{ confidence := 3/4, power_mw := 600 }] =
      { high := [{ confidence := 17/20, power_mw := 600 }],
        moderate := [], low := [] } := by
  intro fires
  refine ⟨?_, ?_, ?_, SatelliteClient.classifyFires_length fires, ?_, ?_⟩
  · rw [SatelliteClient.classifyFires_eq]
  · rw [SatelliteClient.classifyFires_eq]
  · rw [SatelliteClient.classifyFires_eq]
  · norm_num [SatelliteClient.adjustConfidence]
  · norm_num [SatelliteClient.classifyFires, SatelliteClient.adjustConfidence]

namespace NasaApi

/-- The retry loop with only failing attempts in range returns no image
after consuming all its fuel. -/
theorem retryLoop_all_fail {α : Type} (outcomes : Nat → AttemptOutcome α) :
    ∀ fuel i, (∀ j, i ≤ j → j < i + fuel → (outcomes j).isOk = false) →
      retryLoop outcomes i fuel = (none, fuel) := by
  intro fuel
  induction fuel with
  | zero => intro i _; rfl
  | succ n ih =>
    intro i h
    have hi : (outcomes i).isOk = false := h i le_rfl (by omega)
    cases houtcome : outcomes i with
    | ok a => rw [houtcome] at hi; simp [AttemptOutcome.isOk] at hi
    | noData =>
      have hrec : retryLoop outcomes (i + 1) n = (none, n) := by
        apply ih
        intro j hj1 hj2
        exact h j (by omega) (by omega)
      simp [retryLoop, houtcome, hrec]
    | exn =>
      have hrec : retryLoop outcomes (i + 1) n = (none, n) := by
        apply ih
        intro j hj1 hj2
        exact h j (by omega) (by omega)
      simp [retryLoop, houtcome, hrec]

end NasaApi

/-- C5: with no cached image and a source whose every attempt fails, the
fetch makes exactly max_retries attempts and returns absent; the embedded
result type has no error channel because the outer try/except of
fetch_satellite_image converts every escaping exception into None. -/
theorem fetchSatelliteImage_all_attempts_fail {α : Type}
    (outcomes : Nat → NasaApi.AttemptOutcome α) (maxRetries : Nat)
    (h : ∀ j, j < maxRetries → (outcomes j).isOk = false) :
    NasaApi.fetchSatelliteImage none outcomes maxRetries = (none, maxRetries) := by
  show NasaApi.retryLoop outcomes 0 maxRetries = (none, maxRetries)
  apply NasaApi.retryLoop_all_fail
  intro j _ hj
  exact h j (by omega)

/-- Witness for C5 at a concrete always-failing source with three
retries. -/
theorem fetchSatelliteImage_all_attempts_fail_witness :
    (∀ j, j < 3 → ((fun _ => NasaApi.AttemptOutcome.noData (α := Nat)) j).isOk = false) ∧
    NasaApi.fetchSatelliteImage none (fun _ => NasaApi.AttemptOutcome.noData (α := Nat)) 3 =
      (none, 3) :=
  ⟨by decide, fetchSatelliteImage_all_attempts_fail _ 3 (by decide)⟩

/-- C6: the purge deletes exactly the rows whose detection_time is
strictly older than now minus the retention period, retains rows exactly
at the boundary, and returns the number of deleted rows. -/
theorem cleanupOldRecords_boundary :
    ∀ (now maxHistoryDays : Int) (store : List FireHistory.FireRecord)
      (r : FireHistory.FireRecord),
    (r ∈ (FireHistory.cleanupOldRecords now maxHistoryDays store).1 ↔
      r ∈ store ∧ now - maxHistoryDays * 86400 ≤ r.detection_time) ∧
    (FireHistory.cleanupOldRecords now maxHistoryDays store).2 +
      (FireHistory.cleanupOldRecords now maxHistoryDays store).1.length =
      store.length ∧
    (r ∈ (FireHistory.cleanupOldRecords now 30 store).1 ↔
      r ∈ store ∧ now - 30 * 86400 ≤ r.detection_time) := by
  intro now maxHistoryDays store r
  refine ⟨?_, ?_, ?_⟩
  · simp [FireHistory.cleanupOldRecords, List.mem_filter, not_lt]
  · have := FireHistory.length_filter_add_length_not
      (fun r : FireHistory.FireRecord =>
        decide (r.detection_time < now - maxHistoryDays * 86400)) store
    simp only [FireHistory.cleanupOldRecords]
    omega
  · simp [FireHistory.cleanupOldRecords, List.mem_filter, not_lt]

/-- C10: with the stored state explicit, a storage failure during any of
the three read operations is absorbed into an empty list or empty dict,
while a storage failure during either write operation surfaces as an
error to the caller; without a failure the reads compute their query. -/
theorem reads_fail_soft_writes_fail_loud :
    ∀ (tie : FireHistory.FireRecord → FireHistory.FireRecord → Bool)
      (store : List FireHistory.FireRecord) (now hours days : Int)
      (minConfidence : ℚ) (limit : Nat) (latitude longitude radius_km : ℝ)
      (det : FireHistory.FireRecord) (dets : List FireHistory.FireRecord)
      (fail : Bool),
    FireHistory.getRecentDetectionsSafe true tie store now hours minConfidence limit = [] ∧
    FireHistory.getDetectionsByLocationSafe true tie store now latitude longitude radius_km days = [] ∧
    FireHistory.getStatisticsSafe true store now days = [] ∧
    (FireHistory.addDetection fail store det = Except.error () ↔ fail = true) ∧
    (FireHistory.addDetectionsBatch fail store dets = Except.error () ↔ fail = true) ∧
    FireHistory.getRecentDetectionsSafe false tie store now hours minConfidence limit =
      FireHistory.getRecentDetections tie store now hours minConfidence limit ∧
    FireHistory.getDetectionsByLocationSafe false tie store now latitude longitude radius_km days =
      FireHistory.getDetectionsByLocation tie store now latitude longitude radius_km days ∧
    FireHistory.getStatisticsSafe false store now days =
      FireHistory.getStatistics store now days := by
  intro tie store now hours days minConfidence limit latitude longitude radius_km det dets fail
  refine ⟨rfl, rfl, rfl, ?_, ?_, rfl, rfl, rfl⟩
  · cases fail <;> simp [FireHistory.addDetection]
  · cases fail <;> simp [FireHistory.addDetectionsBatch]

namespace ImageCache

/-- The Python min over dict items returns the unique strictly smallest
entry when one exists. -/
theorem foldlMin_eq (k : String) (t : Nat) :
    ∀ (l : List (String × Nat)) (b : String × Nat),
      ((k, t) = b ∨ (k, t) ∈ l) →
      (b ≠ (k, t) → t < b.2) →
      (∀ e ∈ l, e ≠ (k, t) → t < e.2) →
      l.foldl (fun best x => if x.2 < best.2 then x else best) b = (k, t) := by
  intro l
  induction l with
  | nil =>
    intro b hx _ _
    rcases hx with hb | hmem
    · simpa using hb.symm
    · simp at hmem
  | cons x xs ih =>
    intro b hx hb hl
    show xs.foldl _ (if x.2 < b.2 then x else b) = (k, t)
    by_cases hbk : b = (k, t)
    · subst hbk
      by_cases hxk : x = (k, t)
      · subst hxk
        apply ih
        · left
          by_cases hc : (k, t).2 < (k, t).2 <;> simp [hc]
        · intro hne
          by_cases hc : (k, t).2 < (k, t).2 <;> simp [hc] at hne ⊢
        · intro e he hne
          exact hl e (List.mem_cons_of_mem _ he) hne
      · have hxmem : t < x.2 := hl x (List.mem_cons_self _ _) hxk
        have hcond : ¬ x.2 < (k, t).2 := by
          simp only
          omega
        rw [if_neg hcond]
        apply ih
        · left; rfl
        · intro hne; exact absurd rfl hne
        · intro e he hne
          exact hl e (List.mem_cons_of_mem _ he) hne
    · have hmem : (k, t) ∈ x :: xs := by
        rcases hx with hb' | hm
        · exact absurd hb'.symm hbk
        · exact hm
      by_cases hxk : x = (k, t)
      · subst hxk
        have hbt : t < b.2 := hb hbk
        have hcond : ((k, t) : String × Nat).2 < b.2 := by
          simp only
          omega
        rw [if_pos hcond]
        apply ih
        · left; rfl
        · intro hne; exact absurd rfl hne
        · intro e he hne
          exact hl e (List.mem_cons_of_mem _ he) hne
      · have hkxs : (k, t) ∈ xs := by
          rcases List.mem_cons.mp hmem with he | hm
          · exact absurd he.symm hxk
          · exact hm
        apply ih
        · right; exact hkxs
        · intro _
          by_cases hc : x.2 < b.2
          · rw [if_pos hc]
            exact hl x (List.mem_cons_self _ _) hxk
          · rw [if_neg hc]
            exact hb hbk
        · intro e he hne
          exact hl e (List.mem_cons_of_mem _ he) hne

/-- oldestEntry returns the unique strictly smallest entry when one
exists. -/
theorem oldestEntry_eq (l : List (String × Nat)) (k : String) (t : Nat)
    (hmem : (k, t) ∈ l) (hmin : ∀ e ∈ l, e ≠ (k, t) → t < e.2) :
    oldestEntry l = some (k, t) := by
  cases l with
  | nil => simp at hmem
  | cons e es =>
    show some (es.foldl _ e) = some (k, t)
    congr 1
    apply foldlMin_eq
    · rcases List.mem_cons.mp hmem with he | hm
      · left; exact he
      · right; exact hm
    · intro hne
      exact hmin e (List.mem_cons_self _ _) hne
    · intro x hx hne
      exact hmin x (List.mem_cons_of_mem _ hx) hne

end ImageCache

/-- C9: on a cache state whose entry count exceeds max_size and whose
oldest entry is strictly unique, clear_old removes exactly that entry
from the access map and its file from disk, and a following get on the
evicted key reports absent. The entry list is given as the surrounding
context of the oldest entry, and the file list has no duplicates. -/
theorem clearOld_evicts_oldest
    (l1 l2 : List (String × Nat)) (k : String) (t : Nat)
    (files : List String) (maxSize now : Nat)
    (hlen : maxSize < (l1 ++ (k, t) :: l2).length)
    (h1 : ∀ p ∈ l1, p.1 ≠ k) (h2 : ∀ p ∈ l2, p.1 ≠ k)
    (hmin1 : ∀ e ∈ l1, t < e.2) (hmin2 : ∀ e ∈ l2, t < e.2)
    (hnodup : files.Nodup) :
    (ImageCache.clearOld ⟨l1 ++ (k, t) :: l2, files⟩ maxSize).entries = l1 ++ l2 ∧
    (ImageCache.clearOld ⟨l1 ++ (k, t) :: l2, files⟩ maxSize).files = files.erase k ∧
    (ImageCache.cacheGet (ImageCache.clearOld ⟨l1 ++ (k, t) :: l2, files⟩ maxSize) k now).1 = false := by
  have hminAll : ∀ e ∈ l1 ++ (k, t) :: l2, e ≠ (k, t) → t < e.2 := by
    intro e he hne
    rcases List.mem_append.mp he with hm | hm
    · exact hmin1 e hm
    · rcases List.mem_cons.mp hm with he' | hm'
      · exact absurd he' hne
      · exact hmin2 e hm'
  have holdest : ImageCache.oldestEntry (l1 ++ (k, t) :: l2) = some (k, t) :=
    ImageCache.oldestEntry_eq _ k t (by simp) hminAll
  have hstep : ImageCache.clearOld ⟨l1 ++ (k, t) :: l2, files⟩ maxSize =
      { entries := (l1 ++ (k, t) :: l2).filter (fun p => p.1 ≠ k),
        files := files.erase k } := by
    rw [ImageCache.clearOld]
    simp only [hlen, if_true, holdest]
  have hfilter : (l1 ++ (k, t) :: l2).filter (fun p => decide (p.1 ≠ k)) = l1 ++ l2 := by
    rw [List.filter_append]
    have hl1 : l1.filter (fun p => decide (p.1 ≠ k)) = l1 :=
      List.filter_eq_self.mpr (fun a ha => decide_eq_true (h1 a ha))
    have hl2 : ((k, t) :: l2).filter (fun p => decide (p.1 ≠ k)) = l2 := by
      rw [List.filter_cons]
      simp only [decide_eq_true_eq, ne_eq, not_true_eq_false, if_false]
      exact List.filter_eq_self.mpr (fun a ha => decide_eq_true (h2 a ha))
    rw [hl1, hl2]
  refine ⟨?_, ?_, ?_⟩
  · rw [hstep]
    exact hfilter
  · rw [hstep]
  · rw [hstep]
    have hkabsent : k ∉ files.erase k := by
      intro hk
      exact absurd (((List.Nodup.mem_erase_iff hnodup).mp hk).1) (by simp)
    simp [ImageCache.cacheGet, hkabsent]

/-- Witness for C9 on a three-entry cache over capacity two whose middle
entry is the strictly oldest. -/
theorem clearOld_evicts_oldest_witness :
    (2 < ([("a", 5)] ++ ("b", 3) :: [("c", 9)]).length ∧
      (∀ p ∈ [("a", 5)], p.1 ≠ "b") ∧ (∀ p ∈ [("c", 9)], p.1 ≠ "b") ∧
      (∀ e ∈ ([("a", 5)] : List (String × Nat)), 3 < e.2) ∧
      (∀ e ∈ ([("c", 9)] : List (String × Nat)), 3 < e.2) ∧
      (["a", "b", "c"] : List String).Nodup) ∧
    (ImageCache.clearOld ⟨[("a", 5)] ++ ("b", 3) :: [("c", 9)], ["a", "b", "c"]⟩ 2).entries =
      [("a", 5)] ++ [("c", 9)] ∧
    (ImageCache.clearOld ⟨[("a", 5)] ++ ("b", 3) :: [("c", 9)], ["a", "b", "c"]⟩ 2).files =
      (["a", "b", "c"] : List String).erase "b" ∧
    (ImageCache.cacheGet (ImageCache.clearOld ⟨[("a", 5)] ++ ("b", 3) :: [("c", 9)], ["a", "b", "c"]⟩ 2) "b" 7).1 = false :=
  ⟨⟨by decide, by decide, by decide, by decide, by decide, by decide⟩,
    clearOld_evicts_oldest [("a", 5)] [("c", 9)] "b" 3 ["a", "b", "c"] 2 7
      (by decide) (by decide) (by decide) (by decide) (by decide) (by decide)⟩


/-- A feed row whose confidence field holds the numeric string 45, as
csv.DictReader delivers MODIS percentages. -/
def sampleRow45 : NasaFirmsApi.Row :=
  [("latitude", "10.0"), ("longitude", "20.0"), ("confidence", "45")]

/-- C2 counterexample: a numeric confidence arriving as the string field
of a parsed CSV row takes the categorical branch of the normalizer and
maps to 0.5, not to 0.45 as the claim states. -/
theorem normalizeConfidence_csv_string_numeric :
    NasaFirmsApi.normalizeConfidence (.str "45") = 1/2 ∧
    (NasaFirmsApi.parseCsvResponse [sampleRow45]).map NasaFirmsApi.Fire.confidence =
      [1/2] ∧
    ¬((1 : ℚ)/2 = 45/100) :=
  ⟨rfl, rfl, by norm_num⟩

/-- C2 amended: the normalization table holds as claimed for categorical
strings and for values carrying numeric type, but a value arriving as the
string field of a parsed CSV row is handled by the categorical branch, so
any non-categorical string, numeric strings included, maps to 0.5; the
parser feeds the raw string of the confidence field (or numeric 0 when
the field is absent) to the normalizer. -/
theorem normalizeConfidence_characterization :
    ∀ (v : ℚ) (s : String),
    NasaFirmsApi.normalizeConfidence (.str "l") = 3/10 ∧
    NasaFirmsApi.normalizeConfidence (.str "low") = 3/10 ∧
    NasaFirmsApi.normalizeConfidence (.str "n") = 6/10 ∧
    NasaFirmsApi.normalizeConfidence (.str "nominal") = 6/10 ∧
    NasaFirmsApi.normalizeConfidence (.str "h") = 9/10 ∧
    NasaFirmsApi.normalizeConfidence (.str "high") = 9/10 ∧
    (¬(NasaFirmsApi.strLower s = "l" ∨ NasaFirmsApi.strLower s = "low" ∨
        NasaFirmsApi.strLower s = "n" ∨ NasaFirmsApi.strLower s = "nominal" ∨
        NasaFirmsApi.strLower s = "h" ∨ NasaFirmsApi.strLower s = "high") →
      NasaFirmsApi.normalizeConfidence (.str s) = 1/2) ∧
    (0 ≤ v → v ≤ 1 → NasaFirmsApi.normalizeConfidence (.num v) = v) ∧
    (1 < v → v ≤ 100 → NasaFirmsApi.normalizeConfidence (.num v) = v / 100) ∧
    (v < 0 ∨ 100 < v → NasaFirmsApi.normalizeConfidence (.num v) = 1/2) ∧
    NasaFirmsApi.normalizeConfidence (.num 45) = 45/100 ∧
    NasaFirmsApi.normalizeConfidence (.num 85) = 85/100 ∧
    NasaFirmsApi.normalizeConfidence (.num 150) = 1/2 ∧
    NasaFirmsApi.normalizeConfidence (.str "xyz") = 1/2 ∧
    (∀ (row : NasaFirmsApi.Row) (f : NasaFirmsApi.Fire),
      NasaFirmsApi.parseFireRow row = some f →
      f.confidence = NasaFirmsApi.normalizeConfidence
        (NasaFirmsApi.rawConfidenceOf row)) := by
  intro v s
  refine ⟨rfl, rfl, rfl, rfl, rfl, rfl, ?_, ?_, ?_, ?_, rfl, rfl, rfl, rfl, ?_⟩
  · intro h
    have h1 : ¬(NasaFirmsApi.strLower s = "l" ∨ NasaFirmsApi.strLower s = "low") := by
      tauto
    have h2 : ¬(NasaFirmsApi.strLower s = "n" ∨ NasaFirmsApi.strLower s = "nominal") := by
      tauto
    have h3 : ¬(NasaFirmsApi.strLower s = "h" ∨ NasaFirmsApi.strLower s = "high") := by
      tauto
    simp [NasaFirmsApi.normalizeConfidence, h1, h2, h3]
  · intro h0 h1
    simp [NasaFirmsApi.normalizeConfidence, h0, h1]
  · intro hgt hle
    show (if 0 ≤ v ∧ v ≤ 1 then v
      else if 0 ≤ v ∧ v ≤ 100 then v / 100 else 1/2) = v / 100
    rw [if_neg (by intro hc; linarith [hc.2]), if_pos ⟨by linarith, hle⟩]
  · intro hout
    show (if 0 ≤ v ∧ v ≤ 1 then v
      else if 0 ≤ v ∧ v ≤ 100 then v / 100 else 1/2) = 1/2
    rcases hout with hneg | hbig
    · rw [if_neg (by intro hc; linarith [hc.1]),
        if_neg (by intro hc; linarith [hc.1])]
    · rw [if_neg (by intro hc; linarith [hc.2]),
        if_neg (by intro hc; linarith [hc.2])]
  · intro row f hp
    simp only [NasaFirmsApi.parseFireRow, Option.bind_eq_bind, Option.bind_eq_some,
      Option.some.injEq] at hp
    obtain ⟨latS, hlatS, lat, hlat, lonS, hlonS, lon, hlon, b1, hb1, b2, hb2,
      fr, hfr, sc, hsc, tr, htr, hf⟩ := hp
    rw [← hf]

/-- Witness for the amended C2 at the numeric value 45 passed with
numeric type. -/
theorem normalizeConfidence_characterization_witness :
    ((1 : ℚ) < 45 ∧ (45 : ℚ) ≤ 100) ∧
    NasaFirmsApi.normalizeConfidence (.num 45) = 45/100 :=
  ⟨⟨by norm_num, by norm_num⟩,
    (normalizeConfidence_characterization 45 "zz").2.2.2.2.2.2.2.2.1
      (by norm_num) (by norm_num)⟩

/-- A well-formed feed row with high categorical confidence. -/
def goodRowA : NasaFirmsApi.Row :=
  [("latitude", "1.0"), ("longitude", "2.0"), ("confidence", "h")]

/-- A malformed feed row: its latitude field is not numeric, so the float
conversion raises. -/
def badRowB : NasaFirmsApi.Row :=
  [("latitude", "abc"), ("longitude", "2.0")]

/-- A second well-formed feed row, placed after the malformed one. -/
def goodRowC : NasaFirmsApi.Row :=
  [("latitude", "3.0"), ("longitude", "4.0"), ("confidence", "h")]

/-- C3 counterexample: in NASAFIRMSAPIClient._parse_csv_response one
malformed row discards every later row of the response: with rows
good, bad, good the parser returns a single record even though the third
row parses on its own. -/
theorem parseCsvResponse_aborts_after_bad_row :
    (NasaFirmsApi.parseFireRow goodRowC).isSome = true ∧
    NasaFirmsApi.parseFireRow badRowB = none ∧
    (NasaFirmsApi.parseCsvResponse [goodRowA, badRowB, goodRowC]).length = 1 ∧
    (NasaFirmsApi.parseCsvResponse [goodRowA, goodRowC]).length = 2 :=
  ⟨rfl, rfl, rfl, rfl⟩

/-- C3 amended: row-level fault isolation holds in
SatelliteClient._parse_firms_csv, where every malformed line is skipped
individually and all other lines contribute their records; in
NASAFIRMSAPIClient._parse_csv_response, however, parsing stops at the
first malformed row, returning only the rows before it and discarding
every row after it. -/
theorem row_fault_isolation_amended :
    ∀ (nowIso : String) (header bad : List String)
      (pre post : List (List String))
      (prerows postrows : List NasaFirmsApi.Row) (badrow : NasaFirmsApi.Row),
    (SatelliteClient.parseFirmsLine nowIso bad = none →
      SatelliteClient.parseFirmsCsv nowIso (header :: (pre ++ bad :: post)) =
        SatelliteClient.parseFirmsCsv nowIso (header :: (pre ++ post))) ∧
    ((∀ r ∈ prerows, (NasaFirmsApi.parseFireRow r).isSome = true) →
      NasaFirmsApi.parseFireRow badrow = none →
      NasaFirmsApi.parseCsvResponse (prerows ++ badrow :: postrows) =
        NasaFirmsApi.parseCsvResponse prerows) := by
  intro nowIso header bad pre post prerows postrows badrow
  constructor
  · intro hbad
    show (pre ++ bad :: post).filterMap (SatelliteClient.parseFirmsLine nowIso) =
      (pre ++ post).filterMap (SatelliteClient.parseFirmsLine nowIso)
    rw [List.filterMap_append, List.filterMap_append, List.filterMap_cons, hbad]
  · intro hpre hbad
    induction prerows with
    | nil =>
      show NasaFirmsApi.parseCsvResponse (badrow :: postrows) = []
      rw [NasaFirmsApi.parseCsvResponse, hbad]
    | cons r rs ih =>
      have hr : (NasaFirmsApi.parseFireRow r).isSome = true :=
        hpre r (List.mem_cons_self _ _)
      obtain ⟨fire, hfire⟩ := Option.isSome_iff_exists.mp hr
      show NasaFirmsApi.parseCsvResponse (r :: (rs ++ badrow :: postrows)) =
        NasaFirmsApi.parseCsvResponse (r :: rs)
      rw [NasaFirmsApi.parseCsvResponse, NasaFirmsApi.parseCsvResponse, hfire]
      rw [ih (fun x hx => hpre x (List.mem_cons_of_mem _ hx))]

/-- Witness for the amended C3 on concrete responses: a short bad line in
the line-oriented parser and the good-bad-good row response in the
dict-oriented parser. -/
theorem row_fault_isolation_amended_witness :
    (SatelliteClient.parseFirmsLine "t" ["1.0", "2.0", "0", "x"] = none ∧
      (∀ r ∈ [goodRowA], (NasaFirmsApi.parseFireRow r).isSome = true) ∧
      NasaFirmsApi.parseFireRow badRowB = none) ∧
    SatelliteClient.parseFirmsCsv "t"
        (["h"] :: ([["5.0", "6.0", "0", "300"]] ++ ["1.0", "2.0", "0", "x"] :: [["7.0", "8.0", "0", "300"]])) =
      SatelliteClient.parseFirmsCsv "t"
        (["h"] :: ([["5.0", "6.0", "0", "300"]] ++ [["7.0", "8.0", "0", "300"]])) ∧
    NasaFirmsApi.parseCsvResponse ([goodRowA] ++ badRowB :: [goodRowC]) =
      NasaFirmsApi.parseCsvResponse [goodRowA] :=
  ⟨⟨rfl, by intro r hr; simp at hr; rw [hr]; rfl, rfl⟩,
    (row_fault_isolation_amended "t" ["h"] ["1.0", "2.0", "0", "x"]
      [["5.0", "6.0", "0", "300"]] [["7.0", "8.0", "0", "300"]]
      [goodRowA] [goodRowC] badRowB).1 rfl,
    (row_fault_isolation_amended "t" ["h"] ["1.0", "2.0", "0", "x"]
      [["5.0", "6.0", "0", "300"]] [["7.0", "8.0", "0", "300"]]
      [goodRowA] [goodRowC] badRowB).2
      (by intro r hr; simp at hr; rw [hr]; rfl) rfl⟩

/-- C8 counterexample: a requested radius of 0.5 km is passed through to
the outgoing request unchanged, not raised to the claimed lower bound 1. -/
theorem fetchFiresInRegion_no_lower_radius_clamp :
    (NasaFirmsApi.fetchFiresInRegionRequest 0 0 (1/2) "viirs_noaa20" 1).radius_km = 1/2 ∧
    NasaFirmsApi.claimedClampRadius (1/2) = 1 ∧
    ¬((1 : ℚ)/2 = 1) := by
  refine ⟨?_, ?_, by norm_num⟩
  · show min ((1 : ℚ)/2) 1000 = 1/2
    rw [min_eq_left (by norm_num)]
  · show min (max ((1 : ℚ)/2) 1) 1000 = 1
    rw [max_eq_right (by norm_num), min_eq_left (by norm_num)]

/-- C8 amended: before any external request is issued the radius is
clamped from above to 1000 km by min(radius, 1000) with no lower bound
applied, and a request whose caller coordinates fall outside the latitude
range [-90, 90] or longitude range [-180, 180] is rejected with a
validation error before any request value exists, rather than clamped. -/
theorem detectFires_validation_amended :
    ∀ (coordinates : List ℚ) (radius_km lat lon : ℚ),
    (NasaApi.validateCoordinates coordinates = false →
      ExtendedMain.detectFiresRequest coordinates radius_km =
        .error "Invalid coordinates") ∧
    (NasaApi.validateCoordinates [lat, lon] = true →
      ExtendedMain.detectFiresRequest [lat, lon] radius_km =
        .ok (NasaFirmsApi.fetchFiresInRegionRequest lat lon radius_km
          "viirs_noaa20" 1)) ∧
    (NasaApi.validateCoordinates [lat, lon] = true ↔
      (-90 ≤ lat ∧ lat ≤ 90 ∧ -180 ≤ lon ∧ lon ≤ 180)) ∧
    (NasaFirmsApi.fetchFiresInRegionRequest lat lon radius_km "viirs_noaa20" 1).radius_km =
      min radius_km 1000 ∧
    (NasaFirmsApi.fetchFiresInRegionRequest lat lon radius_km "viirs_noaa20" 1).radius_km ≤
      1000 := by
  intro coordinates radius_km lat lon
  refine ⟨?_, ?_, ?_, rfl, min_le_right _ _⟩
  · intro h
    simp [ExtendedMain.detectFiresRequest, h]
  · intro h
    simp [ExtendedMain.detectFiresRequest, h]
  · simp [NasaApi.validateCoordinates, decide_eq_true_eq, and_assoc]

/-- Witness for the amended C8: out-of-range latitude 91 is rejected with
a validation error, in-range coordinates produce the clamped request. -/
theorem detectFires_validation_amended_witness :
    (NasaApi.validateCoordinates [(91 : ℚ), 0] = false ∧
      NasaApi.validateCoordinates [(10 : ℚ), 20] = true) ∧
    ExtendedMain.detectFiresRequest [(91 : ℚ), 0] 50 = .error "Invalid coordinates" ∧
    ExtendedMain.detectFiresRequest [(10 : ℚ), 20] 50 =
      .ok (NasaFirmsApi.fetchFiresInRegionRequest 10 20 50 "viirs_noaa20" 1) :=
  ⟨⟨by norm_num [NasaApi.validateCoordinates],
    by norm_num [NasaApi.validateCoordinates]⟩,
    (detectFires_validation_amended [91, 0] 50 91 0).1
      (by norm_num [NasaApi.validateCoordinates]),
    (detectFires_validation_amended [10, 20] 50 10 20).2.1
      (by norm_num [NasaApi.validateCoordinates])⟩

/-- An engine tie order that keeps rows with equal detection_time in
ascending rowid order. -/
def tieById : FireHistory.FireRecord → FireHistory.FireRecord → Bool :=
  fun a b => decide (a.id ≤ b.id)

/-- An engine tie order that keeps rows with equal detection_time in
descending rowid order. -/
def tieByIdDesc : FireHistory.FireRecord → FireHistory.FireRecord → Bool :=
  fun a b => decide (b.id ≤ a.id)

/-- First of two stored rows sharing one detection_time. -/
noncomputable def cr1 : FireHistory.FireRecord :=
  { id := 1, detection_time := 100, latitude := 0, longitude := 0,
    confidence := 1, power_mw := 0, center_lat := 0, center_lon := 0,
    alert_sent := false }

/-- Second of two stored rows sharing one detection_time. -/
noncomputable def cr2 : FireHistory.FireRecord :=
  { id := 2, detection_time := 100, latitude := 0, longitude := 0,
    confidence := 1, power_mw := 0, center_lat := 0, center_lon := 0,
    alert_sent := false }

/-- C7 counterexample: the query orders only by detection_time
descending, so the relative order of two rows with equal detection_time
depends on the engine tie order: one admissible engine order returns the
two tied rows with descending ids, another with ascending ids, on the
same store; hence ascending-insertion-id tie order is not guaranteed by
the code. -/
theorem getRecentDetections_tie_order_engine_dependent :
    FireHistory.getRecentDetections tieByIdDesc [cr1, cr2] 100 1 0 10 = [cr2, cr1] ∧
    FireHistory.getRecentDetections tieById [cr1, cr2] 100 1 0 10 = [cr1, cr2] ∧
    cr1.detection_time = cr2.detection_time ∧
    ¬(cr1.id = cr2.id) ∧
    ¬(([cr2, cr1] : List FireHistory.FireRecord) = [cr1, cr2]) := by
  refine ⟨rfl, rfl, rfl, by decide, ?_⟩
  intro h
  have h1 : cr2 = cr1 := by injection h
  have h2 : cr2.id = cr1.id := congrArg FireHistory.FireRecord.id h1
  simp [cr1, cr2] at h2

/-- C7 amended: query_recent returns rows passing the time and confidence
filters, ordered by detection_time descending with the result size capped
by limit, and when the limit does not bite it returns exactly the
matching rows; the relative order of rows with equal detection_time is
engine-chosen because the query has no secondary sort key. -/
theorem getRecentDetections_order_amended :
    ∀ (tie : FireHistory.FireRecord → FireHistory.FireRecord → Bool)
      (store : List FireHistory.FireRecord) (now hours : Int)
      (minConfidence : ℚ) (limit : Nat),
    (FireHistory.getRecentDetections tie store now hours minConfidence limit).Pairwise
      (fun a b => b.detection_time ≤ a.detection_time) ∧
    (FireHistory.getRecentDetections tie store now hours minConfidence limit).length ≤
      limit ∧
    (∀ r ∈ FireHistory.getRecentDetections tie store now hours minConfidence limit,
      r ∈ store ∧ now - hours * 3600 ≤ r.detection_time ∧
        minConfidence ≤ r.confidence) ∧
    (store.length ≤ limit →
      ∀ r, r ∈ FireHistory.getRecentDetections tie store now hours minConfidence limit ↔
        (r ∈ store ∧ now - hours * 3600 ≤ r.detection_time ∧
          minConfidence ≤ r.confidence)) := by
  intro tie store now hours minConfidence limit
  have hmem_filter : ∀ r,
      r ∈ store.filter (FireHistory.matchesRecent (now - hours * 3600) minConfidence) ↔
      (r ∈ store ∧ now - hours * 3600 ≤ r.detection_time ∧
        minConfidence ≤ r.confidence) := by
    intro r
    rw [List.mem_filter, FireHistory.matchesRecent, Bool.and_eq_true,
      decide_eq_true_iff, decide_eq_true_iff]
  have hcons := FireHistory.orderByTimeDesc_consistent tie
  have hsorted : (FireHistory.sortBy (FireHistory.orderByTimeDesc tie)
      (store.filter (FireHistory.matchesRecent (now - hours * 3600) minConfidence))).Pairwise
      (fun a b => b.detection_time ≤ a.detection_time) :=
    FireHistory.pairwise_sortBy _ _ hcons.1 hcons.2
      (fun x y z hxy hyz => le_trans hyz hxy) _
  refine ⟨?_, ?_, ?_, ?_⟩
  · exact hsorted.sublist (List.take_sublist _ _)
  · rw [FireHistory.getRecentDetections, List.length_take]
    exact min_le_left _ _
  · intro r hr
    have hr2 := List.take_subset _ _ hr
    rw [FireHistory.mem_sortBy] at hr2
    exact (hmem_filter r).mp hr2
  · intro hlim r
    have hlen : (FireHistory.sortBy (FireHistory.orderByTimeDesc tie)
        (store.filter (FireHistory.matchesRecent (now - hours * 3600) minConfidence))).length ≤
        limit := by
      rw [FireHistory.length_sortBy]
      exact le_trans (List.length_filter_le _ _) hlim
    rw [FireHistory.getRecentDetections, List.take_of_length_le hlen,
      FireHistory.mem_sortBy]
    exact hmem_filter r

/-- Witness for the amended C7 on a one-row store far below the limit. -/
theorem getRecentDetections_order_amended_witness :
    ([cr1] : List FireHistory.FireRecord).length ≤ 10 ∧
    (∀ r, r ∈ FireHistory.getRecentDetections tieById [cr1] 100 1 0 10 ↔
      (r ∈ [cr1] ∧ (100 : Int) - 1 * 3600 ≤ r.detection_time ∧
        (0 : ℚ) ≤ r.confidence)) :=
  ⟨by decide,
    (getRecentDetections_order_amended tieById [cr1] 100 1 0 10).2.2.2 (by decide)⟩

namespace FireHistory

/-- Membership characterization of the location query of the code: the
time window and both bounding-box intervals of half-width radius/111
degrees constrain the stored search-center fields, and the haversine
filter constrains the distance from the query point to the row
latitude/longitude fields. -/
theorem mem_getDetectionsByLocation :
    ∀ (tie : FireRecord → FireRecord → Bool)
      (store : List FireRecord) (now : Int)
      (latitude longitude radius_km : ℝ) (days : Int) (r : FireRecord),
    r ∈ getDetectionsByLocation tie store now latitude longitude radius_km days ↔
      (r ∈ store ∧ now - days * 86400 ≤ r.detection_time ∧
        latitude - radius_km / 111 ≤ r.center_lat ∧
        r.center_lat ≤ latitude + radius_km / 111 ∧
        longitude - radius_km / 111 ≤ r.center_lon ∧
        r.center_lon ≤ longitude + radius_km / 111 ∧
        haversineDistance latitude longitude r.latitude r.longitude ≤ radius_km) := by
  intro tie store now latitude longitude radius_km days r
  simp only [getDetectionsByLocation]
  rw [List.mem_filter, mem_sortBy, List.mem_filter]
  simp only [decide_eq_true_eq]
  tauto

/-- Membership characterization of the claim-worded query: the longitude
half-width carries the cosine factor and the haversine filter constrains
the stored search-center fields. -/
theorem mem_claimedGetDetectionsByLocation :
    ∀ (tie : FireRecord → FireRecord → Bool)
      (store : List FireRecord) (now : Int)
      (latitude longitude radius_km : ℝ) (days : Int) (r : FireRecord),
    r ∈ claimedGetDetectionsByLocation tie store now latitude longitude radius_km days ↔
      (r ∈ store ∧ now - days * 86400 ≤ r.detection_time ∧
        latitude - radius_km / 111 ≤ r.center_lat ∧
        r.center_lat ≤ latitude + radius_km / 111 ∧
        longitude - radius_km / (111 * Real.cos (radians latitude)) ≤ r.center_lon ∧
        r.center_lon ≤ longitude + radius_km / (111 * Real.cos (radians latitude)) ∧
        haversineDistance latitude longitude r.center_lat r.center_lon ≤ radius_km) := by
  intro tie store now latitude longitude radius_km days r
  simp only [claimedGetDetectionsByLocation]
  rw [List.mem_filter, mem_sortBy, List.mem_filter]
  simp only [decide_eq_true_eq]
  tauto

/-- The haversine distance of the code from the point (60, 0) to the
point (60, 1.5) is within 111 km. -/
theorem haversine_bound_60 : haversineDistance 60 0 60 (3/2) ≤ 111 := by
  have hπ := Real.pi_pos
  have h4 := Real.pi_le_four
  have hθhalf_mem : Real.pi/480 ≤ Real.pi/2 := by linarith
  have hθhalf_nonneg : (0:ℝ) ≤ Real.pi/480 := by positivity
  have hsin_nonneg : 0 ≤ Real.sin (Real.pi/480) :=
    Real.sin_nonneg_of_nonneg_of_le_pi hθhalf_nonneg (by linarith)
  have hcos_nonneg : 0 ≤ Real.cos (Real.pi/480) :=
    Real.cos_nonneg_of_mem_Icc ⟨by linarith, hθhalf_mem⟩
  have hdouble : Real.sin (Real.pi/240) =
      2 * Real.sin (Real.pi/480) * Real.cos (Real.pi/480) := by
    have h2 : Real.pi/240 = 2 * (Real.pi/480) := by ring
    rw [h2, Real.sin_two_mul]
  simp only [haversineDistance, radians]
  have e0 : (60:ℝ) * (Real.pi / 180) - 60 * (Real.pi / 180) = 0 := by ring
  have e1 : (60:ℝ) * (Real.pi / 180) = Real.pi/3 := by ring
  have e2 : ((3:ℝ)/2 * (Real.pi / 180) - 0 * (Real.pi / 180)) / 2 = Real.pi/240 := by
    ring
  rw [e0, e1, e2]
  have hzero : Real.sin ((0:ℝ)/2) ^ 2 = 0 := by
    norm_num [Real.sin_zero]
  rw [hzero, zero_add, Real.cos_pi_div_three]
  have hsq : (1:ℝ)/2 * (1/2) * Real.sin (Real.pi/240) ^ 2 =
      (Real.sin (Real.pi/480) * Real.cos (Real.pi/480)) ^ 2 := by
    rw [hdouble]; ring
  rw [hsq, Real.sqrt_sq (by positivity)]
  have harg_le : Real.sin (Real.pi/480) * Real.cos (Real.pi/480) ≤
      Real.sin (Real.pi/480) :=
    mul_le_of_le_one_right hsin_nonneg (Real.cos_le_one _)
  have harcsin : Real.arcsin (Real.sin (Real.pi/480) * Real.cos (Real.pi/480)) ≤
      Real.pi/480 := by
    calc Real.arcsin (Real.sin (Real.pi/480) * Real.cos (Real.pi/480))
        ≤ Real.arcsin (Real.sin (Real.pi/480)) := Real.monotone_arcsin harg_le
      _ = Real.pi/480 := Real.arcsin_sin (by linarith) hθhalf_mem
  nlinarith [harcsin]

end FireHistory

/-- An arbitrary engine tie order for singleton stores. -/
def anyTie : FireHistory.FireRecord → FireHistory.FireRecord → Bool :=
  fun _ _ => true

/-- A stored row whose detection point is the query center (60, 0) but
whose stored search-center sits at longitude 1.5 degrees: inside the
claimed cosine-widened longitude box at latitude 60, outside the
symmetric radius/111 box of the code. -/
noncomputable def c1Rec : FireHistory.FireRecord :=
  { id := 1, detection_time := 0, latitude := 60, longitude := 0,
    confidence := 1, power_mw := 0, center_lat := 60, center_lon := 3/2,
    alert_sent := false }

/-- C1 counterexample: at query center (60, 0) with radius 111 km the
claim-worded query returns the stored row c1Rec while the code query
returns nothing, so the claimed pipeline differs from the code: the code
uses the half-width radius/111 for longitude as well (no cosine factor)
and measures haversine distance to the row latitude/longitude fields
rather than to the stored search-center. -/
theorem getDetectionsByLocation_differs_from_claimed :
    FireHistory.claimedGetDetectionsByLocation anyTie [c1Rec] 0 60 0 111 1 ≠
    FireHistory.getDetectionsByLocation anyTie [c1Rec] 0 60 0 111 1 := by
  have hrad : FireHistory.radians 60 = Real.pi/3 := by
    rw [FireHistory.radians]; ring
  have hw : (111:ℝ) / (111 * Real.cos (FireHistory.radians 60)) = 2 := by
    rw [hrad, Real.cos_pi_div_three]
    norm_num
  have hmem : c1Rec ∈
      FireHistory.claimedGetDetectionsByLocation anyTie [c1Rec] 0 60 0 111 1 := by
    rw [FireHistory.mem_claimedGetDetectionsByLocation]
    refine ⟨by simp, by norm_num [c1Rec], by norm_num [c1Rec], by norm_num [c1Rec],
      ?_, ?_, ?_⟩
    · rw [hw]
      norm_num [c1Rec]
    · rw [hw]
      norm_num [c1Rec]
    · show FireHistory.haversineDistance 60 0 c1Rec.center_lat c1Rec.center_lon ≤ 111
      have hclat : c1Rec.center_lat = 60 := rfl
      have hclon : c1Rec.center_lon = 3/2 := rfl
      rw [hclat, hclon]
      exact FireHistory.haversine_bound_60
  have hnot : c1Rec ∉
      FireHistory.getDetectionsByLocation anyTie [c1Rec] 0 60 0 111 1 := by
    intro h
    have h2 := (FireHistory.mem_getDetectionsByLocation anyTie [c1Rec] 0 60 0 111 1
      c1Rec).mp h
    have h3 := h2.2.2.2.2.2.1
    rw [show c1Rec.center_lon = (3:ℝ)/2 from rfl] at h3
    norm_num at h3
  intro heq
  rw [heq] at hmem
  exact hnot hmem

/-- C1 amended: query_by_location prefilters with a rectangular bounding
box of half-width radius_km/111 degrees in both latitude and longitude
applied to the stored search-center fields, then applies the exact
haversine filter between the query center and the row detection
coordinates (latitude, longitude) with threshold at most radius_km, so a
row whose detection point is exactly at distance radius_km passes the
distance filter and one beyond radius_km is excluded even when its stored
center lies inside the bounding box. -/
theorem getDetectionsByLocation_membership :
    ∀ (tie : FireHistory.FireRecord → FireHistory.FireRecord → Bool)
      (store : List FireHistory.FireRecord) (now : Int)
      (latitude longitude radius_km : ℝ) (days : Int)
      (r : FireHistory.FireRecord),
    r ∈ FireHistory.getDetectionsByLocation tie store now latitude longitude radius_km days ↔
      (r ∈ store ∧ now - days * 86400 ≤ r.detection_time ∧
        latitude - radius_km / 111 ≤ r.center_lat ∧
        r.center_lat ≤ latitude + radius_km / 111 ∧
        longitude - radius_km / 111 ≤ r.center_lon ∧
        r.center_lon ≤ longitude + radius_km / 111 ∧
        FireHistory.haversineDistance latitude longitude r.latitude r.longitude ≤
          radius_km) :=
  FireHistory.mem_getDetectionsByLocation
